import Mathlib

/-!
Verification of the loss-function and training-loop code of mygluon_cv.

The mxnet tensor computations of src/gluoncv/loss.py are shallowly embedded
over exact rationals: an n-dimensional float tensor becomes a nested list of
rationals, and the transcendental primitives of the host framework
(log, exp, sigmoid) are abstract function parameters, since every claim under
verification is about the algebraic and combinatorial structure of the loss
graphs and not about the numerical value of a logarithm.  Elementwise mxnet
operators (where, maximum, minimum, abs, pick, argsort, one_hot, batch_dot,
take) are embedded by the corresponding list operations.
-/

namespace MyGluonCV

/-- A 1-d float tensor. -/
abbrev Vec := List ℚ

/-- A 2-d float tensor. -/
abbrev Mat := List Vec

/-- A 3-d float tensor. -/
abbrev Ten3 := List Mat

/-- A 4-d float tensor. -/
abbrev Ten4 := List Ten3

/-- Sum of all entries of a 2-d tensor. -/
def matSum (m : Mat) : ℚ := (m.map List.sum).sum

/-- Number of entries of a 2-d tensor. -/
def matCount (m : Mat) : ℕ := (m.map List.length).sum

/-- Mean of all entries of a 2-d tensor (mxnet mean over the non-batch axes
of one batch element). -/
def matMean (m : Mat) : ℚ := matSum m / (matCount m : ℚ)

/-- Mean of a 1-d tensor. -/
def vecMean (v : Vec) : ℚ := v.sum / (v.length : ℚ)

/-- Elementwise binary operation on 2-d tensors. -/
def zipWith2d (f : ℚ → ℚ → ℚ) (a b : Mat) : Mat := a.zipWith (List.zipWith f) b

/-- mxnet nd.argsort along a 1-d slice, ascending, stable on ties:
the list of indices of `v` ordered by increasing value. -/
def argsort {α : Type} [LinearOrder α] (v : List α) : List ℕ :=
  (v.enum.insertionSort
    (fun a b => a.2 < b.2 ∨ (a.2 = b.2 ∧ a.1 ≤ b.1))).map Prod.fst

/-- Double argsort: rank[j] is the position the j-th entry receives when the
slice is sorted ascending, exactly as x.argsort(axis).argsort(axis) computes
it in the source. -/
def ranks {α : Type} [LinearOrder α] (v : List α) : List ℕ :=
  argsort (argsort v)

/-- mxnet nd.pick with the default mode=clip: index t is clipped into the
valid range of the row. -/
def pickClip (row : Vec) (t : ℤ) : ℚ :=
  row.getD (max 0 (min t ((row.length : ℤ) - 1))).toNat 0

/-- mxnet nd.log_softmax along the class axis: x_j - log (sum_k exp x_k),
with log and exp abstract. -/
def logSoftmaxRow (lg ex : ℚ → ℚ) (row : Vec) : Vec :=
  row.map (fun x => x - lg ((row.map ex).sum))

/-- Indicator of a positive class target, as the 0/1 float mxnet produces
for ct > 0. -/
def posInd (t : ℤ) : ℚ := if 0 < t then 1 else 0

/-- Number of positive entries (ct > 0) of one anchor row. -/
def countPosRow (row : List ℤ) : ℕ := (row.filter (fun t => 0 < t)).length

/-- Number of positive entries of a whole per-device class-target tensor. -/
def countPos (ct : List (List ℤ)) : ℕ := (ct.map countPosRow).sum

/-! ## SSDMultiBoxLoss (src/gluoncv/loss.py lines 100-174) -/

/-- The state stored by SSDMultiBoxLoss.__init__. -/
structure SSDMultiBoxLossState where
  negativeMiningRatio : ℚ
  rho : ℚ
  lambd : ℚ
  minHardNegatives : ℤ

/-- SSDMultiBoxLoss.__init__: the mining ratio and the minimum number of hard
negatives are clamped to be nonnegative. -/
def ssdInit (negativeMiningRatio rho lambd : ℚ) (minHardNegatives : ℤ) :
    SSDMultiBoxLossState :=
  ⟨max 0 negativeMiningRatio, rho, lambd, max 0 minHardNegatives⟩

/-- The tensors one device contributes to SSDMultiBoxLoss.forward:
cls_pred (B,N,C), box_pred already reshaped like box_target (B,N,4),
cls_target (B,N) and box_target (B,N,4). -/
structure SSDDev where
  cp : Ten3
  bp : Ten3
  ct : List (List ℤ)
  bt : Ten3

/-- Cross-device count of positive anchors: num_pos_all of forward, the sum
over every device of the number of entries with cls_target > 0 (each
per-device sum is pulled to the host by asscalar; the embedding records only
its value). -/
def numPosAll (devs : List SSDDev) : ℕ := (devs.map (fun d => countPos d.ct)).sum

/-- Per-anchor cross-entropy of one batch row:
cls_loss = -pick(log_softmax(cls_pred), cls_target). -/
def ceRow (lg ex : ℚ → ℚ) (cpb : Mat) (ctb : List ℤ) : Vec :=
  (cpb.zip ctb).map (fun p => -(pickClip (logSoftmaxRow lg ex p.1) p.2))

/-- The sort key cls_loss * (pos - 1) of one batch row. -/
def ssdSortKey (ce : Vec) (ctb : List ℤ) : Vec :=
  ce.zipWith (fun l t => l * (posInd t - 1)) ctb

/-- The hard-negative threshold max(min_hard_negatives,
pos.sum(axis=1) * negative_mining_ratio) of one batch row. -/
def ssdThreshold (s : SSDMultiBoxLossState) (ctb : List ℤ) : ℚ :=
  max (s.minHardNegatives : ℚ) ((countPosRow ctb : ℚ) * s.negativeMiningRatio)

/-- One batch row of the masked classification loss:
nd.where((pos + hard_negative) > 0, cls_loss, 0) with
hard_negative = rank < threshold. -/
def ssdMaskedRow (s : SSDMultiBoxLossState) (lg ex : ℚ → ℚ)
    (cpb : Mat) (ctb : List ℤ) : Vec :=
  let ce := ceRow lg ex cpb ctb
  let rk := ranks (ssdSortKey ce ctb)
  let th := ssdThreshold s ctb
  (ce.zip ctb).enum.map (fun p =>
    let hn : ℚ := if ((rk.getD p.1 0 : ℚ) < th) then 1 else 0
    if 0 < posInd p.2.2 + hn then p.2.1 else 0)

/-- Per-device classification loss vector (one entry per batch row):
nd.sum(cls_loss, axis=0, exclude=True) / max(1, num_pos_all). -/
def ssdClsLossDev (s : SSDMultiBoxLossState) (lg ex : ℚ → ℚ)
    (npa : ℕ) (d : SSDDev) : Vec :=
  (d.cp.zip d.ct).map (fun p =>
    (ssdMaskedRow s lg ex p.1 p.2).sum / max 1 (npa : ℚ))

/-- The smooth-L1 transform nd.where(l > rho, l - 0.5 rho, (0.5/rho) l^2)
applied to l = |bp - bt|. -/
def smoothL1 (rho : ℚ) (d : ℚ) : ℚ :=
  let l := |d|
  if rho < l then l - (1/2) * rho else ((1/2) / rho) * l ^ 2

/-- Per-device box loss vector: the smooth-L1 residuals, kept only at
positive anchors, summed over every non-batch axis and divided by
max(1, num_pos_all). -/
def ssdBoxLossDev (s : SSDMultiBoxLossState) (npa : ℕ) (d : SSDDev) : Vec :=
  ((d.bp.zip d.bt).zip d.ct).map (fun p =>
    (((p.1.1.zip p.1.2).zip p.2).map (fun q =>
      ((q.1.1.zipWith (fun x y => smoothL1 s.rho (x - y)) q.1.2).map
        (fun v => v * posInd q.2)).sum)).sum / max 1 (npa : ℚ))

/-- The triple (sum_losses, cls_losses, box_losses) SSDMultiBoxLoss.forward
returns, one loss vector per device (the dummy early return produces one
zero scalar per device, written as a singleton). -/
structure SSDOut where
  sumLosses : List Vec
  clsLosses : List Vec
  boxLosses : List Vec
deriving DecidableEq

/-- SSDMultiBoxLoss.forward over the list of per-device inputs. -/
def ssdForward (s : SSDMultiBoxLossState) (lg ex : ℚ → ℚ)
    (devs : List SSDDev) : SSDOut :=
  let npa := numPosAll devs
  if npa < 1 ∧ s.minHardNegatives < 1 then
    { sumLosses := devs.map (fun _ => [(0 : ℚ)])
      clsLosses := devs.map (fun _ => [(0 : ℚ)])
      boxLosses := devs.map (fun _ => [(0 : ℚ)]) }
  else
    let cls := devs.map (ssdClsLossDev s lg ex npa)
    let box := devs.map (ssdBoxLossDev s npa)
    { sumLosses := cls.zipWith (fun c b => c.zipWith (fun x y => x + s.lambd * y) b) box
      clsLosses := cls
      boxLosses := box }

/-! ## Claim C1: hard-negative mining in SSDMultiBoxLoss.forward -/

/-- The negated negative-masked per-anchor cross-entropy loss: zero at
positive anchors, minus the cross-entropy loss at the rest, so that an
ascending argsort ranks negatives by descending loss. -/
def specNegKey (ce : Vec) (ctb : List ℤ) : Vec :=
  ce.zipWith (fun l t => if 0 < t then 0 else -l) ctb

/-- One batch row of classification-loss contributions as the claim states
them: a positive anchor always contributes its cross-entropy loss, a
non-positive anchor contributes it exactly when its double-argsort rank is
strictly below max(min_hard_negatives, numPositives * negative_mining_ratio),
and every other anchor contributes zero. -/
def specContribRow (s : SSDMultiBoxLossState) (lg ex : ℚ → ℚ)
    (cpb : Mat) (ctb : List ℤ) : Vec :=
  let ce := ceRow lg ex cpb ctb
  let rk := ranks (specNegKey ce ctb)
  let th := max (s.minHardNegatives : ℚ)
    ((countPosRow ctb : ℚ) * s.negativeMiningRatio)
  (ce.zip ctb).enum.map (fun p =>
    if 0 < p.2.2 then p.2.1
    else if (rk.getD p.1 0 : ℚ) < th then p.2.1
    else 0)

theorem ssdSortKey_eq_specNegKey (ce : Vec) (ctb : List ℤ) :
    ssdSortKey ce ctb = specNegKey ce ctb := by
  unfold ssdSortKey specNegKey
  congr 1
  funext l t
  by_cases h : 0 < t <;> simp [posInd, h]

theorem maskedEntry_eq (l : ℚ) (t : ℤ) (C : Prop) [Decidable C] :
    (if 0 < posInd t + (if C then (1 : ℚ) else 0) then l else 0) =
      (if 0 < t then l else if C then l else 0) := by
  by_cases hp : 0 < t <;> by_cases hC : C <;> simp [posInd, hp, hC]

theorem ssdMaskedRow_eq_specContribRow (s : SSDMultiBoxLossState)
    (lg ex : ℚ → ℚ) (cpb : Mat) (ctb : List ℤ) :
    ssdMaskedRow s lg ex cpb ctb = specContribRow s lg ex cpb ctb := by
  unfold ssdMaskedRow specContribRow ssdThreshold
  simp only [ssdSortKey_eq_specNegKey]
  congr 1
  funext p
  exact maskedEntry_eq p.2.1 p.2.2 _

/-- Claim C1: outside the dummy early return, the per-device classification
loss of SSDMultiBoxLoss.forward is, row by row, the sum of the contributions
the claim describes (positives always, non-positives exactly when their
double-argsort rank of the negated negative-masked cross-entropy is below
max(min_hard_negatives, numPositives * negative_mining_ratio), zero
otherwise), divided by max(1, num_pos_all). -/
theorem ssd_hard_negative_mining (s : SSDMultiBoxLossState) (lg ex : ℚ → ℚ)
    (devs : List SSDDev)
    (h : ¬ (numPosAll devs < 1 ∧ s.minHardNegatives < 1)) :
    (ssdForward s lg ex devs).clsLosses = devs.map (fun d =>
      (d.cp.zip d.ct).map (fun p =>
        (specContribRow s lg ex p.1 p.2).sum / max 1 (numPosAll devs : ℚ))) := by
  unfold ssdForward
  rw [if_neg h]
  dsimp only
  congr 1
  funext d
  unfold ssdClsLossDev
  simp only [ssdMaskedRow_eq_specContribRow]

/-- A concrete single-device batch for the claim C1 witness: one positive and
three negative anchors. -/
def ssdDevC1 : SSDDev :=
  { cp := [[[0, 1], [2, 0], [0, 3], [1, 1]]]
    bp := [[[1, 0, 0, 0]]]
    ct := [[1, 0, 0, 0]]
    bt := [[[0, 0, 0, 0]]] }

/-- Claim C1 witness: the mining characterization evaluated at a concrete
single-device batch with one positive anchor. -/
theorem ssd_hard_negative_mining_witness :
    ¬ (numPosAll [ssdDevC1] < 1 ∧ (ssdInit 3 1 1 0).minHardNegatives < 1) ∧
    (ssdForward (ssdInit 3 1 1 0) id id [ssdDevC1]).clsLosses =
      [ssdDevC1].map (fun d =>
        (d.cp.zip d.ct).map (fun p =>
          (specContribRow (ssdInit 3 1 1 0) id id p.1 p.2).sum /
            max 1 (numPosAll [ssdDevC1] : ℚ))) := by
  refine ⟨by norm_num [numPosAll, countPos, countPosRow, ssdInit, ssdDevC1], ?_⟩
  exact ssd_hard_negative_mining (ssdInit 3 1 1 0) id id _
    (by norm_num [numPosAll, countPos, countPosRow, ssdInit, ssdDevC1])

/-! ## Claim C2: cross-device loss reduction in SSDMultiBoxLoss.forward -/

/-- Claim C2: outside the dummy early return, num_pos_all is the sum over
every device of the count of entries with cls_target > 0, and both the
per-device classification loss and the per-device box loss are the
corresponding undivided per-row sums divided by max(1, num_pos_all), the same
global denominator for every device. -/
theorem ssd_cross_device_reduction (s : SSDMultiBoxLossState) (lg ex : ℚ → ℚ)
    (devs : List SSDDev)
    (h : ¬ (numPosAll devs < 1 ∧ s.minHardNegatives < 1)) :
    numPosAll devs =
      (devs.map (fun d =>
        (d.ct.map (fun row => (row.filter (fun t => 0 < t)).length)).sum)).sum ∧
    (ssdForward s lg ex devs).clsLosses = devs.map (fun d =>
      ((d.cp.zip d.ct).map (fun p => (ssdMaskedRow s lg ex p.1 p.2).sum)).map
        (fun v => v / max 1 (numPosAll devs : ℚ))) ∧
    (ssdForward s lg ex devs).boxLosses = devs.map (fun d =>
      (((d.bp.zip d.bt).zip d.ct).map (fun p =>
        (((p.1.1.zip p.1.2).zip p.2).map (fun q =>
          ((q.1.1.zipWith (fun x y => smoothL1 s.rho (x - y)) q.1.2).map
            (fun v => v * posInd q.2)).sum)).sum)).map
        (fun v => v / max 1 (numPosAll devs : ℚ))) := by
  refine ⟨rfl, ?_, ?_⟩ <;>
    · unfold ssdForward
      rw [if_neg h]
      simp [ssdClsLossDev, ssdBoxLossDev, List.map_map, Function.comp]

/-- A concrete single-device batch for the claim C2 witness. -/
def ssdDevC2 : SSDDev :=
  { cp := [[[0, 1]]]
    bp := [[[1, 0, 0, 0]]]
    ct := [[1]]
    bt := [[[0, 0, 0, 0]]] }

/-- Claim C2 witness: the reduction characterization evaluated on a concrete
single-device input with one positive anchor. -/
theorem ssd_cross_device_reduction_witness :
    ¬ (numPosAll [ssdDevC2] < 1 ∧ (ssdInit 3 1 1 0).minHardNegatives < 1) ∧
    (ssdForward (ssdInit 3 1 1 0) id id [ssdDevC2]).boxLosses =
      [ssdDevC2].map (fun d =>
        (((d.bp.zip d.bt).zip d.ct).map (fun p =>
          (((p.1.1.zip p.1.2).zip p.2).map (fun q =>
            ((q.1.1.zipWith (fun x y => smoothL1 (ssdInit 3 1 1 0).rho (x - y)) q.1.2).map
              (fun v => v * posInd q.2)).sum)).sum)).map
          (fun v => v / max 1 (numPosAll [ssdDevC2] : ℚ))) := by
  refine ⟨by norm_num [numPosAll, countPos, countPosRow, ssdInit, ssdDevC2], ?_⟩
  exact (ssd_cross_device_reduction (ssdInit 3 1 1 0) id id _
    (by norm_num [numPosAll, countPos, countPosRow, ssdInit, ssdDevC2])).2.2

/-! ## List indexing helpers -/

theorem getD_map {α β : Type} (f : α → β) (l : List α) (k : ℕ)
    (hk : k < l.length) (d : β) (d0 : α) :
    (l.map f).getD k d = f (l.getD k d0) := by
  rw [List.getD_eq_getElem?_getD, List.getD_eq_getElem?_getD, List.getElem?_map,
    List.getElem?_eq_getElem hk]
  rfl

theorem getD_zip {α β : Type} (l1 : List α) (l2 : List β) (k : ℕ)
    (h1 : k < l1.length) (h2 : k < l2.length) (d1 : α) (d2 : β) :
    (l1.zip l2).getD k (d1, d2) = (l1.getD k d1, l2.getD k d2) := by
  have hk : k < (l1.zip l2).length := by
    rw [List.length_zip]; omega
  rw [List.getD_eq_getElem?_getD, List.getElem?_eq_getElem hk]
  simp [List.getElem_zip, List.getD_eq_getElem?_getD,
    List.getElem?_eq_getElem h1, List.getElem?_eq_getElem h2]

theorem getD_range_map {β : Type} (f : ℕ → β) (n k : ℕ) (hk : k < n) (d : β) :
    ((List.range n).map f).getD k d = f k := by
  rw [getD_map f _ k (by simpa using hk) d 0]
  congr 1
  rw [List.getD_eq_getElem?_getD, List.getElem?_range hk]
  rfl

/-! ## Mask cropping (YOLACTMultiBoxLoss.crop, lines 477-492, and the
identical MaskLoss.crop, lines 664-679) -/

/-- mxnet nd.round: round to the nearest integer, ties away from zero. -/
def mxRound (q : ℚ) : ℤ := if 0 ≤ q then ⌊q + 1/2⌋ else -⌊-q + 1/2⌋

/-- The crop method: with scale = 4, the k-th h-by-w mask is multiplied by
the outer product (batch_dot) of the row indicator
round(y1/4) <= i <= round(y2/4) and the column indicator
round(x1/4) <= j <= round(x2/4) taken from the k-th box (x1, y1, x2, y2). -/
def cropMasks (bboxes : Mat) (h w : ℕ) (masks : Ten3) : Ten3 :=
  (masks.zip bboxes).map (fun pm =>
    let x1 : ℚ := mxRound (pm.2.getD 0 0 / 4)
    let y1 : ℚ := mxRound (pm.2.getD 1 0 / 4)
    let x2 : ℚ := mxRound (pm.2.getD 2 0 / 4)
    let y2 : ℚ := mxRound (pm.2.getD 3 0 / 4)
    (List.range h).map (fun (i : ℕ) => (List.range w).map (fun (j : ℕ) =>
      ((if y1 ≤ (i : ℚ) ∧ (i : ℚ) ≤ y2 then (1 : ℚ) else 0) *
        (if x1 ≤ (j : ℚ) ∧ (j : ℚ) ≤ x2 then (1 : ℚ) else 0)) *
        ((pm.1.getD i []).getD j 0))))

/-- Claim C4: crop preserves the (b, h, w) shape of the mask tensor, keeps an
entry unchanged when its row index lies between the rounded quarter-scaled
y-coordinates and its column index between the rounded quarter-scaled
x-coordinates of the matching box, and zeroes it otherwise. -/
theorem mask_crop (bboxes : Mat) (h w : ℕ) (masks : Ten3)
    (hlen : masks.length = bboxes.length)
    (hshape : ∀ m ∈ masks, m.length = h ∧ ∀ r ∈ m, r.length = w) :
    ((cropMasks bboxes h w masks).length = masks.length ∧
      ∀ m ∈ cropMasks bboxes h w masks, m.length = h ∧ ∀ r ∈ m, r.length = w) ∧
    ∀ k i j, k < masks.length → i < h → j < w →
      (((cropMasks bboxes h w masks).getD k []).getD i []).getD j 0 =
        (if mxRound ((bboxes.getD k []).getD 1 0 / 4) ≤ (i : ℤ) ∧
            (i : ℤ) ≤ mxRound ((bboxes.getD k []).getD 3 0 / 4) ∧
            mxRound ((bboxes.getD k []).getD 0 0 / 4) ≤ (j : ℤ) ∧
            (j : ℤ) ≤ mxRound ((bboxes.getD k []).getD 2 0 / 4)
          then ((masks.getD k []).getD i []).getD j 0 else 0) := by
  constructor
  · constructor
    · simp [cropMasks, List.length_zip, hlen]
    · intro m hm
      simp only [cropMasks] at hm
      obtain ⟨pm, _, rfl⟩ := List.mem_map.mp hm
      constructor
      · simp
      · intro r hr
        obtain ⟨i, _, rfl⟩ := List.mem_map.mp hr
        simp
  · intro k i j hk hi hj
    have hk2 : k < bboxes.length := hlen ▸ hk
    have step1 : (cropMasks bboxes h w masks).getD k [] =
        (fun pm : Mat × Vec =>
          (List.range h).map (fun (i : ℕ) => (List.range w).map (fun (j : ℕ) =>
            ((if (mxRound (pm.2.getD 1 0 / 4) : ℚ) ≤ (i : ℚ) ∧
                (i : ℚ) ≤ (mxRound (pm.2.getD 3 0 / 4) : ℚ) then (1 : ℚ) else 0) *
              (if (mxRound (pm.2.getD 0 0 / 4) : ℚ) ≤ (j : ℚ) ∧
                (j : ℚ) ≤ (mxRound (pm.2.getD 2 0 / 4) : ℚ) then (1 : ℚ) else 0)) *
              ((pm.1.getD i []).getD j 0))))
          (masks.getD k [], bboxes.getD k []) := by
      unfold cropMasks
      rw [getD_map _ _ k (by rw [List.length_zip]; omega) [] ([], []),
        getD_zip _ _ k hk hk2]
    rw [step1]
    rw [getD_range_map _ h i hi [], getD_range_map _ w j hj 0]
    generalize mxRound ((bboxes.getD k []).getD 1 0 / 4) = a
    generalize mxRound ((bboxes.getD k []).getD 3 0 / 4) = b
    generalize mxRound ((bboxes.getD k []).getD 0 0 / 4) = c
    generalize mxRound ((bboxes.getD k []).getD 2 0 / 4) = d
    have e1 : ((a : ℚ) ≤ (i : ℚ)) ↔ (a ≤ (i : ℤ)) := by exact_mod_cast Iff.rfl
    have e2 : ((i : ℚ) ≤ (b : ℚ)) ↔ ((i : ℤ) ≤ b) := by exact_mod_cast Iff.rfl
    have e3 : ((c : ℚ) ≤ (j : ℚ)) ↔ (c ≤ (j : ℤ)) := by exact_mod_cast Iff.rfl
    have e4 : ((j : ℚ) ≤ (d : ℚ)) ↔ ((j : ℤ) ≤ d) := by exact_mod_cast Iff.rfl
    by_cases h1 : a ≤ (i : ℤ) <;> by_cases h2 : (i : ℤ) ≤ b <;>
      by_cases h3 : c ≤ (j : ℤ) <;> by_cases h4 : (j : ℤ) ≤ d <;>
      simp [e1, e2, e3, e4, h1, h2, h3, h4]

/-- Claim C4 witness: cropping a concrete 1-by-2-by-2 mask tensor with the
box (0, 0, 4, 4), whose rounded quarter-scale is (0, 0, 1, 1), keeps the
entry at row 1, column 1. -/
theorem mask_crop_witness :
    ([[[1, 2], [3, 4]]] : Ten3).length = ([[0, 0, 4, 4]] : Mat).length ∧
    (((cropMasks [[0, 0, 4, 4]] 2 2 [[[1, 2], [3, 4]]]).getD 0 []).getD 1 []).getD 1 0 = 4 := by
  constructor
  · rfl
  · have h := (mask_crop [[0, 0, 4, 4]] 2 2 [[[1, 2], [3, 4]]] rfl
      (by decide)).2 0 1 1 (by norm_num) (by norm_num) (by norm_num)
    simp only [mxRound] at h
    norm_num at h
    simpa using h

/-! ## Mask-coefficient projection
(YOLACTMultiBoxLoss.mask_loss, lines 502-525, and the identical
MaskLoss.mask_loss, lines 689-710, which differ only in the stored
gt_weidth/gt_height; both are embedded by maskLossFn below, parameterized by
those two constants). -/

/-- One element of gluon SigmoidBinaryCrossEntropyLoss with
from_sigmoid=True (the framework collaborator stored as self.SBCELoss):
-(log(pred + 1e-12) * label + log(1 - pred + 1e-12) * (1 - label)). -/
def sbceElt (lg : ℚ → ℚ) (p t : ℚ) : ℚ :=
  -(lg (p + 1 / 10 ^ 12) * t + lg (1 - p + 1 / 10 ^ 12) * (1 - t))

/-- gluon SigmoidBinaryCrossEntropyLoss on a stack of instance masks:
elementwise binary cross entropy, then the mean over every non-batch axis. -/
def sbceMean (lg : ℚ → ℚ) (pred tgt : Ten3) : Vec :=
  (pred.zip tgt).map (fun pg => matMean (zipWith2d (sbceElt lg) pg.1 pg.2))

/-- mxnet nd.dot of selected mask coefficients (n, P) with the prototype
masks (P, h, w): out[a][i][j] = sum_p E[a][p] * M[p][i][j]. -/
def dotCoefProto (E : Mat) (M : Ten3) (h w : ℕ) : Ten3 :=
  E.map (fun coefs => (List.range h).map (fun (i : ℕ) =>
    (List.range w).map (fun (j : ℕ) =>
      ((coefs.zip M).map (fun cm => cm.1 * ((cm.2.getD i []).getD j 0))).sum)))

/-- mxnet nd.take along axis 0: select the rows at the given indices. -/
def takeRows {α : Type} (d : α) (m : List α) (idx : List ℕ) : List α :=
  idx.map (fun i => m.getD i d)

/-- mxnet basic integer indexing along axis 0: a negative index wraps around,
as mask_target[i, matches[i, idx]] does in the source. -/
def wrapIdx (n : ℕ) (t : ℤ) : ℕ := (t % (n : ℤ)).toNat

/-- mask_loss of YOLACTMultiBoxLoss (gt_weidth = gt_height = 550) and of
MaskLoss (gt_weidth = gt_height = 740): for every sample i, zero when the
row of matches has no nonnegative entry, otherwise the mean of the
box-area-weighted sigmoid binary cross entropies of the cropped projected
instance masks against the matched ground-truth masks. -/
def maskLossFn (sig lg : ℚ → ℚ) (gtWeidth gtHeight : ℚ)
    (maskPred : Ten4) (maskEoc : Ten3) (maskTarget : Ten4)
    (matchList : List (List ℤ)) (btTarget : Ten3) : Vec :=
  (List.range maskPred.length).map (fun (i : ℕ) =>
    let mai := matchList.getD i []
    let posNum := (mai.filter (fun t => 0 ≤ t)).length
    if posNum = 0 then 0
    else
      let rk := argsort (mai.map (fun t => -t))
      let idx := rk.take posNum
      let posBoxes := takeRows [] (btTarget.getD i []) idx
      let weight := posBoxes.map (fun bx =>
        gtWeidth * gtHeight /
          ((bx.getD 3 0 - bx.getD 1 0) * (bx.getD 2 0 - bx.getD 0 0)))
      let maskGt := idx.map (fun j =>
        (maskTarget.getD i []).getD
          (wrapIdx (maskTarget.getD i []).length (mai.getD j 0)) [])
      let protos := maskPred.getD i []
      let hh := (protos.getD 0 []).length
      let ww := ((protos.getD 0 []).getD 0 []).length
      let preds := (dotCoefProto (takeRows [] (maskEoc.getD i []) idx) protos hh ww).map
        (fun m => m.map (List.map sig))
      let cropped := cropMasks posBoxes hh ww preds
      vecMean ((sbceMean lg cropped maskGt).zipWith (fun l we => l * we) weight))

/-- Claim C5: for every sample i with at least one positive match, the i-th
mask loss is the mean of the per-instance sigmoid binary cross entropies of
sigmoid(take(mask_eoc[i], idx) . mask_pred[i]) — the matrix product of the
coefficients selected at the top pos_num[i] indices of argsort(-matches[i])
with the prototype masks, through sigmoid — cropped to the matched
ground-truth boxes, against the matched rows of mask_target, each weighted by
gt_weidth * gt_height / area of its positive box. -/
theorem mask_coefficient_projection (sig lg : ℚ → ℚ) (gtWeidth gtHeight : ℚ)
    (maskPred : Ten4) (maskEoc : Ten3) (maskTarget : Ten4)
    (matchList : List (List ℤ)) (btTarget : Ten3) (i : ℕ)
    (hi : i < maskPred.length)
    (hpos : 0 < ((matchList.getD i []).filter (fun t => 0 ≤ t)).length) :
    (maskLossFn sig lg gtWeidth gtHeight maskPred maskEoc maskTarget
        matchList btTarget).getD i 0 =
      (let mai := matchList.getD i []
       let idx := (argsort (mai.map (fun t => -t))).take
         ((mai.filter (fun t => 0 ≤ t)).length)
       let posBoxes := takeRows [] (btTarget.getD i []) idx
       let protos := maskPred.getD i []
       let hh := (protos.getD 0 []).length
       let ww := ((protos.getD 0 []).getD 0 []).length
       let projected := (dotCoefProto (takeRows [] (maskEoc.getD i []) idx)
         protos hh ww).map (fun m => m.map (List.map sig))
       let maskGt := idx.map (fun j =>
         (maskTarget.getD i []).getD
           (wrapIdx (maskTarget.getD i []).length (mai.getD j 0)) [])
       let weight := posBoxes.map (fun bx =>
         gtWeidth * gtHeight /
           ((bx.getD 3 0 - bx.getD 1 0) * (bx.getD 2 0 - bx.getD 0 0)))
       vecMean ((sbceMean lg (cropMasks posBoxes hh ww projected) maskGt).zipWith
         (fun l we => l * we) weight)) := by
  unfold maskLossFn
  rw [getD_range_map _ _ i hi 0]
  rw [if_neg (Nat.pos_iff_ne_zero.mp hpos)]

/-- Claim C5 witness: a concrete one-sample input with one positive match
(matches = [[0]]), one 1-by-1 prototype mask and one coefficient. -/
theorem mask_coefficient_projection_witness :
    0 < ((([[0]] : List (List ℤ)).getD 0 []).filter (fun t => 0 ≤ t)).length ∧
    (maskLossFn id id 4 4 [[[[2]]]] [[[3]]] [[[[1]]]] [[0]] [[[0, 0, 4, 4]]]).getD 0 0 =
      (let mai := ([[0]] : List (List ℤ)).getD 0 []
       let idx := (argsort (mai.map (fun t => -t))).take
         ((mai.filter (fun t => 0 ≤ t)).length)
       let posBoxes := takeRows [] (([[[0, 0, 4, 4]]] : Ten3).getD 0 []) idx
       let protos := ([[[[2]]]] : Ten4).getD 0 []
       let hh := (protos.getD 0 []).length
       let ww := ((protos.getD 0 []).getD 0 []).length
       let projected := (dotCoefProto (takeRows [] (([[[3]]] : Ten3).getD 0 []) idx)
         protos hh ww).map (fun m => m.map (List.map id))
       let maskGt := idx.map (fun j =>
         (([[[[1]]]] : Ten4).getD 0 []).getD
           (wrapIdx (([[[[1]]]] : Ten4).getD 0 []).length (mai.getD j 0)) [])
       let weight := posBoxes.map (fun bx =>
         (4 : ℚ) * 4 /
           ((bx.getD 3 0 - bx.getD 1 0) * (bx.getD 2 0 - bx.getD 0 0)))
       vecMean ((sbceMean id (cropMasks posBoxes hh ww projected) maskGt).zipWith
         (fun l we => l * we) weight)) := by
  refine ⟨by norm_num, ?_⟩
  exact mask_coefficient_projection id id 4 4 [[[[2]]]] [[[3]]] [[[[1]]]] [[0]]
    [[[0, 0, 4, 4]]] 0 (by norm_num) (by norm_num)

/-! ## YOLACTMultiBoxLoss.forward (lines 463-575) -/

/-- The state stored by YOLACTMultiBoxLoss.__init__ (gt_weidth and gt_height
are the constants 550). -/
structure YOLACTMultiBoxLossState where
  negativeMiningRatio : ℚ
  rho : ℚ
  boxLambd : ℚ
  confLambd : ℚ
  maskLambd : ℚ
  minHardNegatives : ℤ
  gtWeidth : ℚ
  gtHeight : ℚ

/-- YOLACTMultiBoxLoss.__init__. -/
def yolactInit (negativeMiningRatio rho boxLambd confLambd maskLambd : ℚ)
    (minHardNegatives : ℤ) : YOLACTMultiBoxLossState :=
  ⟨max 0 negativeMiningRatio, rho, boxLambd, confLambd, maskLambd,
    max 0 minHardNegatives, 550, 550⟩

/-- The tensors one device contributes to YOLACTMultiBoxLoss.forward. -/
structure YolactDev where
  cp : Ten3
  bp : Ten3
  ct : List (List ℤ)
  bt : Ten3
  mp : Ten4
  me : Ten3
  mt : Ten4
  ma : List (List ℤ)
  btt : Ten3

/-- num_pos_all of YOLACTMultiBoxLoss.forward: the same cross-device count of
entries with cls_target > 0. -/
def numPosAllYolact (devs : List YolactDev) : ℕ :=
  (devs.map (fun d => countPos d.ct)).sum

/-- The view of a YOLACT device and state through the classification and box
branches, which are line for line those of SSDMultiBoxLoss.forward (with
lambd unused, set to 1). -/
def yolactSSDView (s : YOLACTMultiBoxLossState) : SSDMultiBoxLossState :=
  ⟨s.negativeMiningRatio, s.rho, 1, s.minHardNegatives⟩

/-- The quadruple (sum_losses, cls_losses, box_losses, mask_losses)
YOLACTMultiBoxLoss.forward returns. -/
structure YolactOut where
  sumLosses : List Vec
  clsLosses : List Vec
  boxLosses : List Vec
  maskLosses : List Vec
deriving DecidableEq

/-- YOLACTMultiBoxLoss.forward over the list of per-device inputs: early
dummy zeros when there is no positive sample and no hard-negative floor,
otherwise the mask, classification (conf_lambd-scaled) and box
(box_lambd-scaled) branches, whose classification and box computations repeat
SSDMultiBoxLoss.forward verbatim. -/
def yolactForward (s : YOLACTMultiBoxLossState) (sig lg ex : ℚ → ℚ)
    (devs : List YolactDev) : YolactOut :=
  let npa := numPosAllYolact devs
  if npa < 1 ∧ s.minHardNegatives < 1 then
    { sumLosses := devs.map (fun _ => [(0 : ℚ)])
      clsLosses := devs.map (fun _ => [(0 : ℚ)])
      boxLosses := devs.map (fun _ => [(0 : ℚ)])
      maskLosses := devs.map (fun _ => [(0 : ℚ)]) }
  else
    let mask := devs.map (fun d =>
      (maskLossFn sig lg s.gtWeidth s.gtHeight d.mp d.me d.mt d.ma d.btt).map
        (fun v => s.maskLambd * v))
    let cls := devs.map (fun d =>
      (ssdClsLossDev (yolactSSDView s) lg ex npa ⟨d.cp, d.bp, d.ct, d.bt⟩).map
        (fun v => s.confLambd * v))
    let box := devs.map (fun d =>
      (ssdBoxLossDev (yolactSSDView s) npa ⟨d.cp, d.bp, d.ct, d.bt⟩).map
        (fun v => s.boxLambd * v))
    { sumLosses := (cls.zipWith (fun c b => c.zipWith (fun x y => x + y) b) box).zipWith
        (fun cb m => cb.zipWith (fun x y => x + y) m) mask
      clsLosses := cls
      boxLosses := box
      maskLosses := mask }

/-! ## Claim C8: dummy early return on empty batches -/

/-- Claim C8: whenever num_pos_all < 1 and min_hard_negatives < 1,
SSDMultiBoxLoss.forward and YOLACTMultiBoxLoss.forward return one zero
scalar per device for every loss component, with no mining, regression or
division performed. -/
theorem empty_batch_early_return (s : SSDMultiBoxLossState) (lg ex : ℚ → ℚ)
    (devs : List SSDDev) (s2 : YOLACTMultiBoxLossState) (sig2 lg2 ex2 : ℚ → ℚ)
    (devs2 : List YolactDev)
    (h1 : numPosAll devs < 1) (h2 : s.minHardNegatives < 1)
    (h3 : numPosAllYolact devs2 < 1) (h4 : s2.minHardNegatives < 1) :
    ssdForward s lg ex devs =
      { sumLosses := devs.map (fun _ => [(0 : ℚ)])
        clsLosses := devs.map (fun _ => [(0 : ℚ)])
        boxLosses := devs.map (fun _ => [(0 : ℚ)]) } ∧
    yolactForward s2 sig2 lg2 ex2 devs2 =
      { sumLosses := devs2.map (fun _ => [(0 : ℚ)])
        clsLosses := devs2.map (fun _ => [(0 : ℚ)])
        boxLosses := devs2.map (fun _ => [(0 : ℚ)])
        maskLosses := devs2.map (fun _ => [(0 : ℚ)]) } := by
  constructor
  · unfold ssdForward
    rw [if_pos ⟨h1, h2⟩]
  · unfold yolactForward
    rw [if_pos ⟨h3, h4⟩]

/-- A concrete all-negative single-device SSD input for the claim C8
witness. -/
def ssdDevC8 : SSDDev :=
  { cp := [[[0, 1]]]
    bp := [[[1, 0, 0, 0]]]
    ct := [[0]]
    bt := [[[0, 0, 0, 0]]] }

/-- A concrete all-negative single-device YOLACT input for the claim C8
witness. -/
def yolactDevC8 : YolactDev :=
  { cp := [[[0, 1]]]
    bp := [[[1, 0, 0, 0]]]
    ct := [[0]]
    bt := [[[0, 0, 0, 0]]]
    mp := [[[[2]]]]
    me := [[[3]]]
    mt := [[[[1]]]]
    ma := [[-1]]
    btt := [[[0, 0, 4, 4]]] }

/-- Claim C8 witness: the dummy early return evaluated on concrete inputs
with no positive class target and a zero hard-negative floor. -/
theorem empty_batch_early_return_witness :
    numPosAll [ssdDevC8] < 1 ∧ (ssdInit 3 1 1 0).minHardNegatives < 1 ∧
    numPosAllYolact [yolactDevC8] < 1 ∧
    (yolactInit 3 1 (3/2) 1 (5/4) 0).minHardNegatives < 1 ∧
    (ssdForward (ssdInit 3 1 1 0) id id [ssdDevC8] =
      { sumLosses := [[(0 : ℚ)]], clsLosses := [[(0 : ℚ)]],
        boxLosses := [[(0 : ℚ)]] } ∧
     yolactForward (yolactInit 3 1 (3/2) 1 (5/4) 0) id id id [yolactDevC8] =
      { sumLosses := [[(0 : ℚ)]], clsLosses := [[(0 : ℚ)]],
        boxLosses := [[(0 : ℚ)]], maskLosses := [[(0 : ℚ)]] }) := by
  refine ⟨by norm_num [numPosAll, countPos, countPosRow, ssdDevC8],
    by norm_num [ssdInit],
    by norm_num [numPosAllYolact, countPos, countPosRow, yolactDevC8],
    by norm_num [yolactInit], ?_⟩
  exact empty_batch_early_return (ssdInit 3 1 1 0) id id [ssdDevC8]
    (yolactInit 3 1 (3/2) 1 (5/4) 0) id id id [yolactDevC8]
    (by norm_num [numPosAll, countPos, countPosRow, ssdDevC8])
    (by norm_num [ssdInit])
    (by norm_num [numPosAllYolact, countPos, countPosRow, yolactDevC8])
    (by norm_num [yolactInit])

/-! ## IOULoss (lines 577-605) -/

/-- The state stored by IOULoss.__init__. -/
structure IOULossState where
  returnIou : Bool
  eps : ℚ

/-- The per-box-pair IoU value of IOULoss.hybrid_forward: intersection
(plus one) over union (plus one), clamped below at zero.  The four box
coordinates are the last-axis entries (x1, y1, x2, y2) that F.split
produces. -/
def iouOf (p g : Vec) : ℚ :=
  let px1 := p.getD 0 0
  let py1 := p.getD 1 0
  let px2 := p.getD 2 0
  let py2 := p.getD 3 0
  let gx1 := g.getD 0 0
  let gy1 := g.getD 1 0
  let gx2 := g.getD 2 0
  let gy2 := g.getD 3 0
  let apd := |px2 - px1 + 1| * |py2 - py1 + 1|
  let agt := |gx2 - gx1 + 1| * |gy2 - gy1 + 1|
  let iw := max (min px2 gx2 - max px1 gx1 + 1) 0
  let ih := max (min py2 gy2 - max py1 gy1 + 1) 0
  let ain := iw * ih + 1
  let union := apd + agt - ain + 1
  max (ain / union) 0

/-- The full (B, N) ious tensor of IOULoss.hybrid_forward. -/
def iousMat (pred gt : Ten3) : Mat :=
  (pred.zip gt).map (fun pg => (pg.1.zip pg.2).map (fun r => iouOf r.1 r.2))

/-- fg_mask = where(label > 0, 1, 0). -/
def fgMask (label : Mat) : Mat :=
  label.map (List.map (fun t => if 0 < t then (1 : ℚ) else 0))

/-- The scalar IOULoss.hybrid_forward returns:
sum(-log(min(ious + eps, 1)) * fg_mask) / max(sum(fg_mask), 1). -/
def iouLossScalar (lg : ℚ → ℚ) (s : IOULossState) (pred gt : Ten3)
    (label : Mat) : ℚ :=
  matSum (zipWith2d (fun iou f => -(lg (min (iou + s.eps) 1)) * f)
    (iousMat pred gt) (fgMask label)) / max (matSum (fgMask label)) 1

/-- IOULoss.hybrid_forward: the scalar together with the full ious tensor
when return_iou is set, the scalar alone otherwise. -/
def iouForward (lg : ℚ → ℚ) (s : IOULossState) (pred gt : Ten3)
    (label : Mat) : (ℚ × Mat) ⊕ ℚ :=
  if s.returnIou then
    Sum.inl (iouLossScalar lg s pred gt label, iousMat pred gt)
  else
    Sum.inr (iouLossScalar lg s pred gt label)

/-- The number of foreground entries (label > 0) of the label tensor. -/
def specFgCount (label : Mat) : ℕ :=
  (label.map (fun row => (row.filter (fun t => 0 < t)).length)).sum

/-- The loss numerator as the claim reads it: the per-entry foreground
restriction of -log(min(ious + eps, 1)). -/
def specIouNum (lg : ℚ → ℚ) (eps : ℚ) (pred gt : Ten3) (label : Mat) : ℚ :=
  matSum (zipWith2d (fun iou t => if 0 < t then -(lg (min (iou + eps) 1)) else 0)
    (iousMat pred gt) label)

theorem rowFgSum (row : Vec) :
    (row.map (fun t => if 0 < t then (1 : ℚ) else 0)).sum =
      ((row.filter (fun t => 0 < t)).length : ℚ) := by
  induction row with
  | nil => simp
  | cons a l ih =>
    by_cases h : 0 < a <;> simp [h, ih, List.filter_cons] <;> push_cast <;> ring

theorem fgMask_sum_eq_count (label : Mat) :
    matSum (fgMask label) = (specFgCount label : ℚ) := by
  unfold matSum fgMask specFgCount
  rw [List.map_map]
  induction label with
  | nil => simp
  | cons r l ih =>
    simp only [List.map_cons, List.sum_cons, ih]
    rw [Function.comp_apply, rowFgSum]
    push_cast
    ring

theorem zipWith_congr_fun {α β γ : Type} (f g : α → β → γ)
    (h : ∀ a b, f a b = g a b) (l1 : List α) (l2 : List β) :
    l1.zipWith f l2 = l1.zipWith g l2 := by
  have hfg : f = g := funext (fun a => funext (h a))
  rw [hfg]

theorem iouLossScalar_eq_spec (lg : ℚ → ℚ) (s : IOULossState) (pred gt : Ten3)
    (label : Mat) :
    iouLossScalar lg s pred gt label =
      specIouNum lg s.eps pred gt label / max (specFgCount label : ℚ) 1 := by
  unfold iouLossScalar specIouNum
  rw [fgMask_sum_eq_count]
  congr 1
  unfold zipWith2d fgMask
  rw [List.zipWith_map_right]
  congr 1
  refine zipWith_congr_fun _ _ (fun a b => ?_) _ _
  rw [List.zipWith_map_right]
  refine zipWith_congr_fun _ _ (fun iou t => ?_) _ _
  by_cases h : 0 < t <;> simp [h]

/-- Claim C3: every entry of the ious tensor is
max(ain / union, 0) with ain = max(min(px2,gx2)-max(px1,gx1)+1, 0) *
max(min(py2,gy2)-max(py1,gy1)+1, 0) + 1 and
union = abs(px2-px1+1)*abs(py2-py1+1) + abs(gx2-gx1+1)*abs(gy2-gy1+1)
- ain + 1; the returned scalar is the sum of -log(min(ious+eps, 1)) over
foreground entries (label > 0) divided by max(number of foreground entries,
1); with return_iou the scalar is paired with the full ious tensor,
otherwise it is returned alone. -/
theorem iou_loss (lg : ℚ → ℚ) (s : IOULossState) (pred gt : Ten3)
    (label : Mat) :
    (∀ b n, b < pred.length → b < gt.length →
      n < (pred.getD b []).length → n < (gt.getD b []).length →
      ((iousMat pred gt).getD b []).getD n 0 =
        (let p := (pred.getD b []).getD n []
         let g := (gt.getD b []).getD n []
         let ain := max (min (p.getD 2 0) (g.getD 2 0) -
             max (p.getD 0 0) (g.getD 0 0) + 1) 0 *
           max (min (p.getD 3 0) (g.getD 3 0) -
             max (p.getD 1 0) (g.getD 1 0) + 1) 0 + 1
         let union := |p.getD 2 0 - p.getD 0 0 + 1| * |p.getD 3 0 - p.getD 1 0 + 1| +
           |g.getD 2 0 - g.getD 0 0 + 1| * |g.getD 3 0 - g.getD 1 0 + 1| - ain + 1
         max (ain / union) 0)) ∧
    iouForward lg s pred gt label =
      (if s.returnIou then
        Sum.inl (specIouNum lg s.eps pred gt label /
          max (specFgCount label : ℚ) 1, iousMat pred gt)
      else
        Sum.inr (specIouNum lg s.eps pred gt label /
          max (specFgCount label : ℚ) 1)) := by
  constructor
  · intro b n hb1 hb2 hn1 hn2
    unfold iousMat
    rw [getD_map _ _ b (by rw [List.length_zip]; omega) [] ([], []),
      getD_zip _ _ b hb1 hb2]
    dsimp only
    rw [getD_map _ _ n (by rw [List.length_zip]; omega) 0 ([], []),
      getD_zip _ _ n hn1 hn2]
    rfl
  · unfold iouForward
    rw [iouLossScalar_eq_spec]

/-- Claim C3 witness: the entry characterization and the scalar-alone return
shape evaluated on a concrete one-pair input: for two identical unit boxes
the smoothed formula gives ain = 5, union = 4, ious = 5/4. -/
theorem iou_loss_witness :
    (0 : ℕ) < ([[[0, 0, 1, 1]]] : Ten3).length ∧
    ((iousMat [[[0, 0, 1, 1]]] [[[0, 0, 1, 1]]]).getD 0 []).getD 0 0 = 5 / 4 ∧
    iouForward id ⟨false, 1/100000⟩ [[[0, 0, 1, 1]]] [[[0, 0, 1, 1]]] [[1]] =
      Sum.inr (specIouNum id (1/100000) [[[0, 0, 1, 1]]] [[[0, 0, 1, 1]]] [[1]] /
        max (specFgCount [[1]] : ℚ) 1) := by
  have h := iou_loss id ⟨false, 1/100000⟩ [[[0, 0, 1, 1]]] [[[0, 0, 1, 1]]] [[1]]
  refine ⟨by norm_num, ?_, ?_⟩
  · have h0 := h.1 0 0 (by norm_num) (by norm_num) (by norm_num) (by norm_num)
    rw [h0]
    norm_num
  · have h2 := h.2
    simpa using h2


/-! ## FocalLoss (lines 15-91)

The sparse-label branch of hybrid_forward is embedded; the dense branch
(sparse_label False) takes a dense probability tensor as label and is outside
claim C6, which conditions on sparse_label being true. -/

/-- The state stored by FocalLoss.__init__, in the order of its keyword
parameters. -/
structure FocalLossState where
  axis : ℤ
  alpha : ℚ
  gamma : ℕ
  sparseLabel : Bool
  fromLogits : Bool
  batchAxis : ℤ
  weight : Option ℚ
  numClass : Option ℤ
  eps : ℚ
  sizeAverage : Bool
deriving DecidableEq

/-- The python test not isinstance(num_class, int) or (num_class < 1):
num_class is missing (not an int) or below one. -/
def badNumClass (nc : Option ℤ) : Bool :=
  match nc with
  | none => true
  | some n => decide (n < 1)

/-- FocalLoss.__init__: raises ValueError when sparse_label is set and
num_class is not a positive int, stores the parameters otherwise. -/
def focalLossInit (axis : ℤ) (alpha : ℚ) (gamma : ℕ)
    (sparseLabel fromLogits : Bool) (batchAxis : ℤ) (weight : Option ℚ)
    (numClass : Option ℤ) (eps : ℚ) (sizeAverage : Bool) :
    Except String FocalLossState :=
  if sparseLabel ∧ badNumClass numClass then
    Except.error "Number of class > 0 must be provided if sparse label is used."
  else
    Except.ok ⟨axis, alpha, gamma, sparseLabel, fromLogits, batchAxis, weight,
      numClass, eps, sizeAverage⟩

/-- gluon loss._apply_weighting: multiply by sample_weight when given, then
by the scalar weight when given. -/
def applyWeighting (weight : Option ℚ) (sampleWeight : Option Mat)
    (loss : Mat) : Mat :=
  let l1 := match sampleWeight with
    | none => loss
    | some sw => zipWith2d (fun x y => x * y) loss sw
  match weight with
  | none => l1
  | some w => l1.map (List.map (fun x => x * w))

/-- One batch row of the focal loss tensor (sparse labels): over the
num_class one-hot positions, -alpha_t (1 - p_t)^gamma log(min(p_t + eps, 1))
with p_t the (sigmoided unless from_logits) prediction at the one-hot
position and its complement elsewhere. -/
def focalRow (sig lg : ℚ → ℚ) (s : FocalLossState) (predRow : Vec)
    (lab : ℤ) : Vec :=
  (List.range (s.numClass.getD 0).toNat).map (fun (j : ℕ) =>
    let p := predRow.getD j 0
    let ps := if s.fromLogits then p else sig p
    let pt := if (j : ℤ) = lab then ps else 1 - ps
    let al := if (j : ℤ) = lab then s.alpha else 1 - s.alpha ;
    -al * (1 - pt) ^ s.gamma * lg (min (pt + s.eps) 1))

/-- FocalLoss.hybrid_forward in the sparse-label case: the per-element focal
loss, the weighting hook, then the mean (size_average) or sum over every
non-batch axis, giving one value per batch element. -/
def focalForward (sig lg : ℚ → ℚ) (s : FocalLossState) (pred : Mat)
    (label : List ℤ) (sampleWeight : Option Mat) : Vec :=
  let loss := applyWeighting s.weight sampleWeight
    ((pred.zip label).map (fun pl => focalRow sig lg s pl.1 pl.2))
  loss.map (fun row => if s.sizeAverage then vecMean row else row.sum)

/-- Claim C6: with sparse_label true, a valid num_class, and default
weighting, FocalLoss.hybrid_forward returns one value per batch element: the
mean (when size_average, otherwise the sum) over the num_class class
positions of -alpha_t (1 - p_t)^gamma log(min(p_t + eps, 1)), with
p_t = sigmoid(pred) at the one-hot position and 1 - sigmoid(pred) elsewhere
(the sigmoid omitted under from_logits) and alpha_t = alpha at the one-hot
position and 1 - alpha elsewhere. -/
theorem focal_loss (sig lg : ℚ → ℚ) (s : FocalLossState) (pred : Mat)
    (label : List ℤ) (C : ℤ)
    (hsl : s.sparseLabel = true) (hC : s.numClass = some C) (hC1 : 1 ≤ C)
    (hw : s.weight = none) (hlen : pred.length = label.length) :
    (focalForward sig lg s pred label none).length = pred.length ∧
    focalForward sig lg s pred label none = (pred.zip label).map (fun pl =>
      let vals := (List.range C.toNat).map (fun (j : ℕ) =>
        let ps := if s.fromLogits then pl.1.getD j 0 else sig (pl.1.getD j 0)
        let pt := if (j : ℤ) = pl.2 then ps else 1 - ps
        let al := if (j : ℤ) = pl.2 then s.alpha else 1 - s.alpha ;
        -al * (1 - pt) ^ s.gamma * lg (min (pt + s.eps) 1))
      if s.sizeAverage then vals.sum / (C.toNat : ℚ) else vals.sum) := by
  have hform : focalForward sig lg s pred label none =
      (pred.zip label).map (fun pl =>
        if s.sizeAverage then vecMean (focalRow sig lg s pl.1 pl.2)
        else (focalRow sig lg s pl.1 pl.2).sum) := by
    unfold focalForward applyWeighting
    rw [hw]
    simp [List.map_map, Function.comp]
  constructor
  · rw [hform, List.length_map, List.length_zip, hlen, min_self]
  · rw [hform]
    congr 1
    funext pl
    have hrow : focalRow sig lg s pl.1 pl.2 =
        (List.range C.toNat).map (fun (j : ℕ) =>
          let ps := if s.fromLogits then pl.1.getD j 0 else sig (pl.1.getD j 0)
          let pt := if (j : ℤ) = pl.2 then ps else 1 - ps
          let al := if (j : ℤ) = pl.2 then s.alpha else 1 - s.alpha ;
          -al * (1 - pt) ^ s.gamma * lg (min (pt + s.eps) 1)) := by
      unfold focalRow
      rw [hC]
      rfl
    rw [hrow]
    by_cases hsa : s.sizeAverage = true
    · rw [if_pos hsa, if_pos hsa]
      unfold vecMean
      rw [List.length_map, List.length_range]
    · rw [if_neg hsa, if_neg hsa]

/-- Claim C6 witness: the characterization evaluated at a concrete state
(alpha 1/4, gamma 2, two classes, size_average) on a one-element batch. -/
theorem focal_loss_witness :
    (⟨-1, 1/4, 2, true, false, 0, none, some 2, 1/10^12, true⟩ :
      FocalLossState).sparseLabel = true ∧
    (focalForward id id
        ⟨-1, 1/4, 2, true, false, 0, none, some 2, 1/10^12, true⟩
        [[1, 2]] [1] none).length = ([[1, 2]] : Mat).length ∧
    focalForward id id ⟨-1, 1/4, 2, true, false, 0, none, some 2, 1/10^12, true⟩
        [[1, 2]] [1] none =
      (([[1, 2]] : Mat).zip ([1] : List ℤ)).map (fun pl =>
        let vals := (List.range (2 : ℤ).toNat).map (fun (j : ℕ) =>
          let ps := if (false : Bool) then pl.1.getD j 0 else id (pl.1.getD j 0)
          let pt := if (j : ℤ) = pl.2 then ps else 1 - ps
          let al := if (j : ℤ) = pl.2 then (1/4 : ℚ) else 1 - 1/4 ;
          -al * (1 - pt) ^ 2 * id (min (pt + 1/10^12) 1))
        if (true : Bool) then vals.sum / ((2 : ℤ).toNat : ℚ) else vals.sum) := by
  refine ⟨rfl, ?_, ?_⟩
  · exact (focal_loss id id _ [[1, 2]] [1] 2 rfl rfl (by norm_num) rfl rfl).1
  · exact (focal_loss id id _ [[1, 2]] [1] 2 rfl rfl (by norm_num) rfl rfl).2

/-! ## Claim C9: constructor precondition checks
(FocalLoss.__init__ lines 60-73, SigmoidFocalLoss.__init__ lines 622-632,
MaskFCOSLoss.__init__ lines 717-736) -/

/-- The state stored by SigmoidFocalLoss.__init__. -/
structure SigmoidFocalLossState where
  alpha : ℚ
  gamma : ℕ
  sparseLabel : Bool
  fromLogits : Bool
  batchAxis : ℤ
  weight : Option ℚ
  numClass : Option ℤ
  eps : ℚ
deriving DecidableEq

/-- SigmoidFocalLoss.__init__: the same num_class check as FocalLoss. -/
def sigmoidFocalLossInit (alpha : ℚ) (gamma : ℕ)
    (sparseLabel fromLogits : Bool) (batchAxis : ℤ) (weight : Option ℚ)
    (numClass : Option ℤ) (eps : ℚ) : Except String SigmoidFocalLossState :=
  if sparseLabel ∧ badNumClass numClass then
    Except.error "Number of class > 0 must be provided if sparse label is used."
  else
    Except.ok ⟨alpha, gamma, sparseLabel, fromLogits, batchAxis, weight,
      numClass, eps⟩

/-- The state stored by MaskFCOSLoss.__init__ (gt_weidth and gt_height come
from img_shape; self.max is the constant 0). -/
structure MaskFCOSLossState where
  returnIou : Bool
  eps : ℚ
  alpha : ℚ
  gamma : ℕ
  clsLambd : ℚ
  boxLambd : ℚ
  ctrLambd : ℚ
  maskLambd : ℚ
  sparseLabel : Bool
  numClass : Option ℤ
  fromLogits : Bool
  gtWeidth : ℚ
  gtHeight : ℚ
  maxVal : ℚ
deriving DecidableEq

/-- MaskFCOSLoss.__init__: the same num_class check (with its misspelled
message), then the stored fields including img_shape and self.max = 0. -/
def maskFCOSLossInit (returnIou : Bool) (alpha : ℚ) (gamma : ℕ)
    (clsLambd boxLambd ctrLambd maskLambd : ℚ) (imgShape : ℚ × ℚ)
    (sparseLabel fromLogits : Bool) (numClass : Option ℤ) (eps : ℚ) :
    Except String MaskFCOSLossState :=
  if sparseLabel ∧ badNumClass numClass then
    Except.error "Nomber of class > 0 must be provided if sparse label is used."
  else
    Except.ok ⟨returnIou, eps, alpha, gamma, clsLambd, boxLambd, ctrLambd,
      maskLambd, sparseLabel, numClass, fromLogits, imgShape.1, imgShape.2, 0⟩

theorem badNumClass_iff (nc : Option ℤ) :
    badNumClass nc = true ↔ (nc = none ∨ ∃ n, nc = some n ∧ n < 1) := by
  cases nc with
  | none => simp [badNumClass]
  | some n => simp [badNumClass]

/-- Claim C9: each of the three constructors fails (raises ValueError) if and
only if sparse_label is set and num_class is not an int or is below 1; on
every other argument combination it succeeds and stores the parameters
unchanged. -/
theorem constructor_num_class_check (axis : ℤ) (alpha : ℚ) (gamma : ℕ)
    (sparseLabel fromLogits : Bool) (batchAxis : ℤ) (weight : Option ℚ)
    (numClass : Option ℤ) (eps : ℚ) (sizeAverage : Bool) (returnIou : Bool)
    (clsLambd boxLambd ctrLambd maskLambd : ℚ) (imgShape : ℚ × ℚ) :
    (((focalLossInit axis alpha gamma sparseLabel fromLogits batchAxis weight
        numClass eps sizeAverage).isOk = false ↔
      (sparseLabel = true ∧ (numClass = none ∨ ∃ n, numClass = some n ∧ n < 1))) ∧
     ((sigmoidFocalLossInit alpha gamma sparseLabel fromLogits batchAxis weight
        numClass eps).isOk = false ↔
      (sparseLabel = true ∧ (numClass = none ∨ ∃ n, numClass = some n ∧ n < 1))) ∧
     ((maskFCOSLossInit returnIou alpha gamma clsLambd boxLambd ctrLambd
        maskLambd imgShape sparseLabel fromLogits numClass eps).isOk = false ↔
      (sparseLabel = true ∧ (numClass = none ∨ ∃ n, numClass = some n ∧ n < 1)))) ∧
    (¬ (sparseLabel = true ∧ (numClass = none ∨ ∃ n, numClass = some n ∧ n < 1)) →
      (focalLossInit axis alpha gamma sparseLabel fromLogits batchAxis weight
          numClass eps sizeAverage =
        Except.ok ⟨axis, alpha, gamma, sparseLabel, fromLogits, batchAxis,
          weight, numClass, eps, sizeAverage⟩ ∧
       sigmoidFocalLossInit alpha gamma sparseLabel fromLogits batchAxis weight
          numClass eps =
        Except.ok ⟨alpha, gamma, sparseLabel, fromLogits, batchAxis, weight,
          numClass, eps⟩ ∧
       maskFCOSLossInit returnIou alpha gamma clsLambd boxLambd ctrLambd
          maskLambd imgShape sparseLabel fromLogits numClass eps =
        Except.ok ⟨returnIou, eps, alpha, gamma, clsLambd, boxLambd, ctrLambd,
          maskLambd, sparseLabel, numClass, fromLogits, imgShape.1,
          imgShape.2, 0⟩)) := by
  have hcond : (sparseLabel ∧ badNumClass numClass) ↔
      (sparseLabel = true ∧ (numClass = none ∨ ∃ n, numClass = some n ∧ n < 1)) := by
    rw [← badNumClass_iff]
  constructor
  · refine ⟨?_, ?_, ?_⟩
    · unfold focalLossInit
      rw [← hcond]
      by_cases h : (sparseLabel ∧ badNumClass numClass) <;>
        simp [h, Except.isOk, Except.toBool]
    · unfold sigmoidFocalLossInit
      rw [← hcond]
      by_cases h : (sparseLabel ∧ badNumClass numClass) <;>
        simp [h, Except.isOk, Except.toBool]
    · unfold maskFCOSLossInit
      rw [← hcond]
      by_cases h : (sparseLabel ∧ badNumClass numClass) <;>
        simp [h, Except.isOk, Except.toBool]
  · intro h
    rw [← hcond] at h
    unfold focalLossInit sigmoidFocalLossInit maskFCOSLossInit
    refine ⟨?_, ?_, ?_⟩ <;> rw [if_neg h]

/-- Claim C9 witness: with sparse_label true and num_class = 5 none of the
checks fire and FocalLoss.__init__ stores its parameters unchanged. -/
theorem constructor_num_class_check_witness :
    ¬ ((true : Bool) = true ∧ ((some 5 : Option ℤ) = none ∨
        ∃ n, (some 5 : Option ℤ) = some n ∧ n < 1)) ∧
    focalLossInit (-1) (1/4) 2 true false 0 none (some 5) (1/10^12) true =
      Except.ok ⟨-1, 1/4, 2, true, false, 0, none, some 5, 1/10^12, true⟩ := by
  have hneg : ¬ ((true : Bool) = true ∧ ((some 5 : Option ℤ) = none ∨
      ∃ n, (some 5 : Option ℤ) = some n ∧ n < 1)) := by
    rintro ⟨-, h | ⟨n, hn, hlt⟩⟩
    · exact Option.noConfusion h
    · rw [Option.some_inj] at hn
      omega
  exact ⟨hneg, ((constructor_num_class_check (-1) (1/4) 2 true false 0 none
    (some 5) (1/10^12) true false 1 1 1 1 (740, 740)).2 hneg).1⟩

/-! ## The point-cloud training loop
(src/scripts/classification/pointcloud/train_pointnet.py, train, lines
116-189).

The epoch loop is embedded as a state machine over the trainer state the
script mutates: the learning rate, the lr_decay_count cursor into the parsed
lr_decay_epoch list, and the number of trainer.step calls.  The appended
np.inf sentinel of line 67 is the out-of-range case of the list lookup,
which no epoch number ever equals.  lrLog records the learning rate in force
during each epoch's mini-batch loop (the batch loop itself never touches the
learning rate; trainer.step only updates parameters). -/

/-- The configuration the script derives from its CLI options: opt.lr,
opt.lr_decay, the parsed lr_decay_epoch list, and the number of mini-batches
per epoch. -/
structure TrainConfig where
  lr0 : ℚ
  lrDecay : ℚ
  decayEpochs : List ℕ
  numBatches : ℕ

/-- The mutable trainer state of the epoch loop. -/
structure TrainState where
  lr : ℚ
  lrDecayCount : ℕ
  stepsTotal : ℕ
  lrLog : List ℚ
deriving DecidableEq

/-- One epoch: the decay check at the top of the loop body (line 151-153),
then numBatches trainer.step calls with the learning rate in force. -/
def epochUpdate (cfg : TrainConfig) (epoch : ℕ) (s : TrainState) : TrainState :=
  let s1 :=
    match cfg.decayEpochs[s.lrDecayCount]? with
    | some v =>
      if epoch = v then
        { s with lr := s.lr * cfg.lrDecay, lrDecayCount := s.lrDecayCount + 1 }
      else s
    | none => s
  { s1 with stepsTotal := s1.stepsTotal + cfg.numBatches
            lrLog := s1.lrLog ++ [s1.lr] }

/-- The state train starts from: learning_rate = opt.lr, lr_decay_count = 0,
no steps taken. -/
def initTrainState (cfg : TrainConfig) : TrainState := ⟨cfg.lr0, 0, 0, []⟩

/-- train(epochs, ctx): for epoch in range(epochs). -/
def trainRun (cfg : TrainConfig) (epochs : ℕ) : TrainState :=
  (List.range epochs).foldl (fun s e => epochUpdate cfg e s) (initTrainState cfg)

/-- The number of decay-list entries consumed after epochs 0..t-1: entry c is
consumed exactly when some epoch equals it while it is the next unconsumed
entry, and an entry that is never exactly hit blocks all later ones. -/
def matchedCount (l : List ℕ) (t : ℕ) : ℕ :=
  (List.range t).foldl (fun c e => if l[c]? = some e then c + 1 else c) 0

theorem matchedCount_succ (l : List ℕ) (e : ℕ) :
    matchedCount l (e + 1) =
      if l[matchedCount l e]? = some e then matchedCount l e + 1
      else matchedCount l e := by
  unfold matchedCount
  rw [List.range_succ, List.foldl_append]
  rfl

theorem trainRun_succ (cfg : TrainConfig) (n : ℕ) :
    trainRun cfg (n + 1) = epochUpdate cfg n (trainRun cfg n) := by
  unfold trainRun
  rw [List.range_succ, List.foldl_append]
  rfl

theorem getD_concat_length {α : Type} (l : List α) (x : α) (d : α) :
    (l ++ [x]).getD l.length d = x := by
  rw [List.getD_eq_getElem?_getD, List.getElem?_append_right (le_refl _)]
  simp

theorem getD_concat_of_length {α : Type} (l : List α) (x d : α) (n : ℕ)
    (h : l.length = n) : (l ++ [x]).getD n d = x := by
  subst h
  exact getD_concat_length l x d

theorem getD_append_of_lt {α : Type} (l l2 : List α) (d : α) (n : ℕ)
    (h : n < l.length) : (l ++ l2).getD n d = l.getD n d := by
  rw [List.getD_eq_getElem?_getD, List.getElem?_append_left h,
    ← List.getD_eq_getElem?_getD]

theorem trainRun_invariant (cfg : TrainConfig) (epochs : ℕ) :
    (trainRun cfg epochs).lrDecayCount = matchedCount cfg.decayEpochs epochs ∧
    (trainRun cfg epochs).lr =
      cfg.lr0 * cfg.lrDecay ^ matchedCount cfg.decayEpochs epochs ∧
    (trainRun cfg epochs).stepsTotal = epochs * cfg.numBatches ∧
    (trainRun cfg epochs).lrLog.length = epochs ∧
    ∀ e, e < epochs → (trainRun cfg epochs).lrLog.getD e 0 =
      cfg.lr0 * cfg.lrDecay ^ matchedCount cfg.decayEpochs (e + 1) := by
  induction epochs with
  | zero =>
    unfold trainRun matchedCount initTrainState
    simp
  | succ n ih =>
    obtain ⟨ih1, ih2, ih3, ih4, ih5⟩ := ih
    rw [trainRun_succ]
    unfold epochUpdate
    rw [ih1]
    rcases hq : cfg.decayEpochs[matchedCount cfg.decayEpochs n]? with _ | v
    · have hmc : matchedCount cfg.decayEpochs (n + 1) =
          matchedCount cfg.decayEpochs n := by
        rw [matchedCount_succ, hq, if_neg (by simp)]
      dsimp only
      refine ⟨by rw [ih1, hmc], by rw [ih2, hmc], by rw [ih3]; ring,
        by simp [ih4], ?_⟩
      intro e he
      rcases Nat.lt_succ_iff_lt_or_eq.mp he with he2 | he2
      · rw [getD_append_of_lt _ _ _ _ (by rw [ih4]; exact he2)]
        exact ih5 e he2
      · subst he2
        rw [getD_concat_of_length _ _ _ _ ih4, ih2, hmc]
    · by_cases hv : n = v
      · subst hv
        have hmc : matchedCount cfg.decayEpochs (n + 1) =
            matchedCount cfg.decayEpochs n + 1 := by
          rw [matchedCount_succ, hq, if_pos rfl]
        dsimp only
        rw [if_pos rfl]
        dsimp only
        refine ⟨by rw [hmc], ?_, by rw [ih3]; ring, by simp [ih4], ?_⟩
        · rw [ih2, hmc, pow_succ]
          ring
        · intro e he
          rcases Nat.lt_succ_iff_lt_or_eq.mp he with he2 | he2
          · rw [getD_append_of_lt _ _ _ _ (by rw [ih4]; exact he2)]
            exact ih5 e he2
          · subst he2
            rw [getD_concat_of_length _ _ _ _ ih4, ih2, hmc, pow_succ]
            ring
      · have hmc : matchedCount cfg.decayEpochs (n + 1) =
            matchedCount cfg.decayEpochs n := by
          rw [matchedCount_succ, hq,
            if_neg (fun hh => hv (Option.some_inj.mp hh).symm)]
        dsimp only
        rw [if_neg hv]
        refine ⟨by rw [ih1, hmc], by rw [ih2, hmc], by rw [ih3]; ring,
          by simp [ih4], ?_⟩
        intro e he
        rcases Nat.lt_succ_iff_lt_or_eq.mp he with he2 | he2
        · rw [getD_append_of_lt _ _ _ _ (by rw [ih4]; exact he2)]
          exact ih5 e he2
        · subst he2
          rw [getD_concat_of_length _ _ _ _ ih4, ih2, hmc]

/-- Claim C7: train runs exactly `epochs` epoch iterations (one learning-rate
log entry each), performs exactly one trainer.step per mini-batch
(numBatches per epoch), and during epoch e the learning rate is opt.lr times
lr_decay raised to the number of decay-list entries consumed by epochs <= e,
where the next unconsumed entry is consumed exactly when the epoch number
equals it — so an entry never exactly hit causes no further decays. -/
theorem train_epoch_state_machine (cfg : TrainConfig) (epochs : ℕ) :
    (trainRun cfg epochs).lrLog.length = epochs ∧
    (trainRun cfg epochs).stepsTotal = epochs * cfg.numBatches ∧
    (∀ e, e < epochs → (trainRun cfg epochs).lrLog.getD e 0 =
      cfg.lr0 * cfg.lrDecay ^ matchedCount cfg.decayEpochs (e + 1)) ∧
    (∀ e, matchedCount cfg.decayEpochs (e + 1) =
      if cfg.decayEpochs[matchedCount cfg.decayEpochs e]? = some e
      then matchedCount cfg.decayEpochs e + 1
      else matchedCount cfg.decayEpochs e) := by
  obtain ⟨-, -, h3, h4, h5⟩ := trainRun_invariant cfg epochs
  exact ⟨h4, h3, h5, fun e => matchedCount_succ cfg.decayEpochs e⟩

/-- Claim C7 witness: three epochs with decay list [1] and two batches per
epoch; the decay fires at epoch 1 and the logged rates are
(10, 10 d, 10 d) with d = 1/2. -/
theorem train_epoch_state_machine_witness :
    (trainRun ⟨10, 1/2, [1], 2⟩ 3).lrLog.length = 3 ∧
    (trainRun ⟨10, 1/2, [1], 2⟩ 3).stepsTotal = 3 * 2 ∧
    (1 : ℕ) < 3 ∧
    (trainRun ⟨10, 1/2, [1], 2⟩ 3).lrLog.getD 1 0 =
      (10 : ℚ) * (1/2) ^ matchedCount [1] 2 := by
  obtain ⟨h1, h2, h3, -⟩ := train_epoch_state_machine ⟨10, 1/2, [1], 2⟩ 3
  exact ⟨h1, h2, by norm_num, h3 1 (by norm_num)⟩

/-! ## Claim C10: best-checkpoint bookkeeping of train
(train_pointnet.py lines 141 and 177-179).

best_val_score starts at 0; after each epoch the script compares the epoch's
validation accuracy val_acc against it, and exactly on val_acc >
best_val_score replaces the best and writes the -best.params checkpoint.
trainBest folds that loop over the per-epoch validation accuracies and
records, per epoch, the best score after the epoch and whether the
checkpoint was written. -/

def trainBest (b : ℚ) : List ℚ → List (ℚ × Bool)
  | [] => []
  | a :: rest =>
    let b2 := if b < a then a else b
    (b2, decide (b < a)) :: trainBest b2 rest

/-- best_val_score after epoch e. -/
def bestAfter (accs : List ℚ) (e : ℕ) : ℚ :=
  ((trainBest 0 accs).getD e (0, false)).1

/-- Whether the -best.params checkpoint is written in epoch e. -/
def savedAt (accs : List ℚ) (e : ℕ) : Bool :=
  ((trainBest 0 accs).getD e (0, false)).2

theorem ite_lt_eq_max (b a : ℚ) : (if b < a then a else b) = max b a := by
  by_cases h : b < a
  · rw [if_pos h, max_eq_right h.le]
  · rw [if_neg h, max_eq_left (not_lt.mp h)]

theorem trainBest_length (b : ℚ) (accs : List ℚ) :
    (trainBest b accs).length = accs.length := by
  induction accs generalizing b with
  | nil => rfl
  | cons a rest ih => simp [trainBest, ih]

theorem trainBest_entry (accs : List ℚ) : ∀ (b : ℚ) (e : ℕ), e < accs.length →
    ((trainBest b accs).getD e (0, false)).1 = (accs.take (e + 1)).foldl max b ∧
    (((trainBest b accs).getD e (0, false)).2 = true ↔
      (b < accs.getD e 0 ∧ ∀ f, f < e → accs.getD f 0 < accs.getD e 0)) := by
  induction accs with
  | nil =>
    intro b e he
    simp at he
  | cons a rest ih =>
    intro b e he
    cases e with
    | zero =>
      constructor
      · simp [trainBest, ite_lt_eq_max]
      · simp [trainBest]
    | succ e =>
      have he2 : e < rest.length := by simpa using he
      have hcons : (trainBest b (a :: rest)).getD (e + 1) (0, false) =
          (trainBest (if b < a then a else b) rest).getD e (0, false) := by
        simp [trainBest]
      obtain ⟨ihl, ihr⟩ := ih (if b < a then a else b) e he2
      constructor
      · rw [hcons, ihl]
        have htake : (a :: rest).take (e + 2) = a :: rest.take (e + 1) := rfl
        rw [htake, List.foldl_cons, ite_lt_eq_max]
      · rw [hcons, ihr, ite_lt_eq_max]
        simp only [List.getD_cons_succ]
        constructor
        · rintro ⟨h1, h2⟩
          refine ⟨(max_lt_iff.mp h1).1, ?_⟩
          intro f hf
          cases f with
          | zero =>
            simpa using (max_lt_iff.mp h1).2
          | succ f =>
            exact h2 f (by omega)
        · rintro ⟨h1, h2⟩
          refine ⟨max_lt_iff.mpr ⟨h1, by simpa using h2 0 (by omega)⟩, ?_⟩
          intro f hf
          exact h2 (f + 1) (by omega)

/-- Claim C10 as stated, restricted to its save clause: a -best.params
checkpoint is saved in exactly those epochs whose validation accuracy
strictly exceeds every previous epoch's validation accuracy. -/
def savedIffExceedsAll (accs : List ℚ) : Prop :=
  ∀ e, e < accs.length →
    (savedAt accs e = true ↔ ∀ f, f < e → accs.getD f 0 < accs.getD e 0)

/-- Claim C10 counterexample: with a single epoch of validation accuracy 0,
epoch 0 strictly exceeds every previous epoch (vacuously) but the code
writes no checkpoint, because val_acc = 0 does not exceed the initial
best_val_score 0. -/
theorem best_checkpoint_counterexample : ¬ savedIffExceedsAll [0] := by
  intro h
  have h0 := (h 0 (by norm_num)).mpr (fun f hf => absurd hf (by omega))
  simp [savedAt, trainBest] at h0

theorem take_succ_of_lt {α : Type} (l : List α) (n : ℕ) (d : α)
    (h : n < l.length) : l.take (n + 1) = l.take n ++ [l.getD n d] := by
  rw [List.take_succ, List.getElem?_eq_getElem h]
  simp [List.getD_eq_getElem?_getD, List.getElem?_eq_getElem h]

/-- Claim C10 amended: best_val_score is non-decreasing, after each epoch it
equals the running maximum of 0 and the validation accuracies seen so far,
and a -best.params checkpoint is saved in exactly those epochs whose
validation accuracy both strictly exceeds every previous epoch's validation
accuracy and strictly exceeds 0, the initial best score. -/
theorem best_checkpoint_amended (accs : List ℚ) :
    (∀ e, e + 1 < accs.length → bestAfter accs e ≤ bestAfter accs (e + 1)) ∧
    (∀ e, e < accs.length →
      bestAfter accs e = (accs.take (e + 1)).foldl max 0) ∧
    (∀ e, e < accs.length → (savedAt accs e = true ↔
      (0 < accs.getD e 0 ∧ ∀ f, f < e → accs.getD f 0 < accs.getD e 0))) := by
  refine ⟨?_, ?_, ?_⟩
  · intro e he
    have h1 := (trainBest_entry accs 0 e (by omega)).1
    have h2 := (trainBest_entry accs 0 (e + 1) he).1
    unfold bestAfter
    rw [h1, h2, take_succ_of_lt accs (e + 1) 0 he, List.foldl_append]
    simp only [List.foldl_cons, List.foldl_nil]
    exact le_max_left _ _
  · intro e he
    exact (trainBest_entry accs 0 e he).1
  · intro e he
    exact (trainBest_entry accs 0 e he).2

/-- Claim C10 amended witness: three epochs with accuracies (1/2, 1/4, 3/4):
the best score is monotone, equals the prefix maximum after epoch 0, and the
save rule holds at epoch 1 (no checkpoint: 1/4 beats neither 1/2 nor the
initial 0). -/
theorem best_checkpoint_amended_witness :
    (0 : ℕ) + 1 < ([1/2, 1/4, 3/4] : List ℚ).length ∧
    bestAfter [1/2, 1/4, 3/4] 0 ≤ bestAfter [1/2, 1/4, 3/4] 1 ∧
    bestAfter [1/2, 1/4, 3/4] 0 =
      (([1/2, 1/4, 3/4] : List ℚ).take 1).foldl max 0 ∧
    (savedAt [1/2, 1/4, 3/4] 1 = true ↔
      (0 < ([1/2, 1/4, 3/4] : List ℚ).getD 1 0 ∧
        ∀ f, f < 1 → ([1/2, 1/4, 3/4] : List ℚ).getD f 0 <
          ([1/2, 1/4, 3/4] : List ℚ).getD 1 0)) := by
  obtain ⟨h1, h2, h3⟩ := best_checkpoint_amended [1/2, 1/4, 3/4]
  exact ⟨by norm_num, h1 0 (by norm_num), h2 0 (by norm_num), h3 1 (by norm_num)⟩

end MyGluonCV
